import Mathlib

/-!
Verification of `Sources/CServiceDiscoveryHelpers/CSDAtomics.c` from
swift-service-discovery: two heap-allocated atomic cells (`_Atomic long`
and `_Atomic bool`) with create / load / store / compare-and-exchange /
fetch-add / fetch-sub operations.

Embedding conventions:
* A `long` value is a bit pattern, modelled as a `Nat` below `2 ^ w`, where
  `w` is the native width of `long` (64 on the usual platforms; every general
  theorem is proved for all `w`).  A mathematical integer `x : Int` is encoded
  in two's complement by `wrapLong w x = x % 2 ^ w` (non-negative remainder).
* A `_Atomic bool` cell physically stores one byte.  `atomic_fetch_add` /
  `atomic_fetch_sub` applied to it perform byte arithmetic modulo `2 ^ 8`
  (the `atomicrmw add i8` / `atomicrmw sub i8` the compiler emits), while
  reading the cell as a `bool` truncates the byte to its bit 0.
* Each C function becomes a pure Lean function in explicit state-passing
  style: the cell's stored pattern goes in, and the pair
  (returned value, new stored pattern) comes out (`Unit`-returning `store`
  yields just the new pattern).
* `malloc`-backed allocation is modelled by a memory `Mem` mapping addresses
  to cell contents together with a fresh-address counter.
-/

/-- Two's-complement encoding of an integer into a `w`-bit pattern:
the unique representative of `x` modulo `2 ^ w` in `[0, 2 ^ w)`. -/
def wrapLong (w : Nat) (x : Int) : Nat :=
  (x % ((2 : Int) ^ w)).toNat

/-- The byte (0 or 1) a C `bool` occupies in memory. -/
def boolByte (b : Bool) : Nat :=
  if b then 1 else 0

/-- Reading a stored byte back as a `bool`: the compiler truncates the byte
to its lowest bit (`trunc i8 to i1`). -/
def byteBool (s : Nat) : Bool :=
  decide (s % 2 = 1)

/-- `atomic_compare_exchange_strong` on one cell, in state-passing style.
Inputs: current stored pattern `s`, the caller-side variable `expected`
(passed in C by pointer), and `desired`.  Output: the returned success flag,
the new stored pattern, and the new content of the `expected` variable (the
primitive writes the observed value into it on failure). -/
def atomic_compare_exchange_strong (s expected desired : Nat) :
    Bool × Nat × Nat :=
  if s = expected then (true, desired, expected) else (false, s, s)

/-- `c_sd_atomic_long_create`: `malloc` a cell and `atomic_init` it with
`value` (the cell-local part: the initial stored pattern). -/
def c_sd_atomic_long_create (w : Nat) (value : Int) : Nat :=
  wrapLong w value

/-- `c_sd_atomic_long_compare_and_exchange`: copies `expected` into the local
`expected_copy`, runs the strong CAS against the copy, and returns only the
boolean, discarding the copy (into which the primitive wrote the observed
value). -/
def c_sd_atomic_long_compare_and_exchange (w : Nat) (s : Nat)
    (expected desired : Int) : Bool × Nat :=
  let expected_copy := wrapLong w expected
  let r := atomic_compare_exchange_strong s expected_copy (wrapLong w desired)
  (r.1, r.2.1)

/-- `c_sd_atomic_long_add`: `atomic_fetch_add_explicit` with relaxed order;
returns the prior pattern and stores the two's-complement wraparound sum. -/
def c_sd_atomic_long_add (w : Nat) (s : Nat) (value : Int) : Nat × Nat :=
  (s, wrapLong w ((s : Int) + value))

/-- `c_sd_atomic_long_sub`: `atomic_fetch_sub_explicit` with relaxed order;
returns the prior pattern and stores the two's-complement wraparound
difference. -/
def c_sd_atomic_long_sub (w : Nat) (s : Nat) (value : Int) : Nat × Nat :=
  (s, wrapLong w ((s : Int) - value))

/-- `c_sd_atomic_long_load`: `atomic_load_explicit`, the stored pattern. -/
def c_sd_atomic_long_load (s : Nat) : Nat :=
  s

/-- `c_sd_atomic_long_store`: `atomic_store_explicit`; returns nothing in C,
so here only the new stored pattern. -/
def c_sd_atomic_long_store (w : Nat) (s : Nat) (value : Int) : Nat :=
  wrapLong w value

/-- `c_sd_atomic_bool_create`: `malloc` a cell and `atomic_init` it; the
stored byte is 1 for `true`, 0 for `false`. -/
def c_sd_atomic_bool_create (value : Bool) : Nat :=
  boolByte value

/-- `c_sd_atomic_bool_compare_and_exchange`: strong CAS on the stored byte
against the byte of `expected`, via the local `expected_copy`, returning only
the boolean. -/
def c_sd_atomic_bool_compare_and_exchange (s : Nat)
    (expected desired : Bool) : Bool × Nat :=
  let expected_copy := boolByte expected
  let r := atomic_compare_exchange_strong s expected_copy (boolByte desired)
  (r.1, r.2.1)

/-- `c_sd_atomic_bool_add`: `atomic_fetch_add_explicit` on the byte-sized
cell — byte arithmetic modulo 256; the returned `bool` is the prior byte
truncated to bit 0. -/
def c_sd_atomic_bool_add (s : Nat) (value : Bool) : Bool × Nat :=
  (byteBool s, (s + boolByte value) % 256)

/-- `c_sd_atomic_bool_sub`: `atomic_fetch_sub_explicit` on the byte-sized
cell — wraparound byte subtraction; returns the prior byte's bit 0. -/
def c_sd_atomic_bool_sub (s : Nat) (value : Bool) : Bool × Nat :=
  (byteBool s, (s + (256 - boolByte value)) % 256)

/-- `c_sd_atomic_bool_load`: `atomic_load_explicit` of the byte, read back
as a `bool`. -/
def c_sd_atomic_bool_load (s : Nat) : Bool :=
  byteBool s

/-- `c_sd_atomic_bool_store`: `atomic_store_explicit` of the byte of
`value`. -/
def c_sd_atomic_bool_store (s : Nat) (value : Bool) : Nat :=
  boolByte value

/- Arithmetic facts about the two's-complement encoding. -/

theorem wrapLong_cast (w : Nat) (x : Int) :
    ((wrapLong w x : Nat) : Int) = x % (2 : Int) ^ w := by
  have hpos : (0 : Int) < (2 : Int) ^ w := by positivity
  exact Int.toNat_of_nonneg (Int.emod_nonneg x (ne_of_gt hpos))

theorem wrapLong_natCast (w a : Nat) :
    wrapLong w ((a : Nat) : Int) = a % 2 ^ w := by
  unfold wrapLong
  have h2 : ((2 : Int) ^ w) = ((2 ^ w : Nat) : Int) := by push_cast; ring
  rw [h2, ← Int.ofNat_emod]
  exact Int.toNat_natCast _

theorem wrapLong_lt (w : Nat) (x : Int) : wrapLong w x < 2 ^ w := by
  have hpos : (0 : Int) < (2 : Int) ^ w := by positivity
  have h := Int.emod_lt_of_pos x hpos
  have h2 : ((2 : Int) ^ w) = ((2 ^ w : Nat) : Int) := by push_cast; ring
  unfold wrapLong
  omega

theorem wrapLong_add_left (w : Nat) (x y : Int) :
    wrapLong w ((wrapLong w x : Nat) + y) = wrapLong w (x + y) := by
  rw [wrapLong_cast]
  unfold wrapLong
  congr 1
  rw [Int.add_emod, Int.emod_emod_of_dvd _ dvd_rfl, ← Int.add_emod]

theorem wrapLong_sub_left (w : Nat) (x y : Int) :
    wrapLong w ((wrapLong w x : Nat) - y) = wrapLong w (x - y) := by
  rw [wrapLong_cast]
  unfold wrapLong
  congr 1
  rw [Int.sub_emod, Int.emod_emod_of_dvd _ dvd_rfl, ← Int.sub_emod]

theorem wrapLong_of_lt (w : Nat) (a : Nat) (h : a < 2 ^ w) :
    wrapLong w ((a : Nat) : Int) = a := by
  rw [wrapLong_natCast]
  exact Nat.mod_eq_of_lt h

/- Heap model: `malloc` hands out fresh addresses from a counter; each
address holds the stored pattern of the cell allocated there. -/

/-- The process heap as the cells see it: the patterns stored at long-cell
addresses, the bytes stored at bool-cell addresses, and the next fresh
address `malloc` will return. -/
structure Mem where
  longVal : Nat → Nat
  boolVal : Nat → Nat
  next : Nat

/-- One call against a long cell (`load` reads only, so it is the identity
on memory). -/
inductive LongOp where
  | load : LongOp
  | store : Int → LongOp
  | add : Int → LongOp
  | sub : Int → LongOp
  | cas : Int → Int → LongOp
deriving DecidableEq

/-- One call against a bool cell. -/
inductive BoolOp where
  | load : BoolOp
  | store : Bool → BoolOp
  | add : Bool → BoolOp
  | sub : Bool → BoolOp
  | cas : Bool → Bool → BoolOp
deriving DecidableEq

/-- Overwrite the long cell at address `h`. -/
def setLong (m : Mem) (h : Nat) (v : Nat) : Mem :=
  { m with longVal := fun a => if a = h then v else m.longVal a }

/-- Overwrite the bool cell at address `h`. -/
def setBool (m : Mem) (h : Nat) (v : Nat) : Mem :=
  { m with boolVal := fun a => if a = h then v else m.boolVal a }

/-- `c_sd_atomic_long_create` at the heap level: `malloc` returns the fresh
address, which is initialised with the encoded value. -/
def memLongCreate (w : Nat) (m : Mem) (value : Int) : Nat × Mem :=
  (m.next,
    { longVal := fun a =>
        if a = m.next then c_sd_atomic_long_create w value else m.longVal a
      boolVal := m.boolVal
      next := m.next + 1 })

/-- `c_sd_atomic_bool_create` at the heap level. -/
def memBoolCreate (m : Mem) (value : Bool) : Nat × Mem :=
  (m.next,
    { longVal := m.longVal
      boolVal := fun a =>
        if a = m.next then c_sd_atomic_bool_create value else m.boolVal a
      next := m.next + 1 })

/-- Effect on memory of one call against the long cell at address `h`. -/
def applyLongOp (w : Nat) (m : Mem) (h : Nat) : LongOp → Mem
  | .load => m
  | .store v => setLong m h (c_sd_atomic_long_store w (m.longVal h) v)
  | .add v => setLong m h (c_sd_atomic_long_add w (m.longVal h) v).2
  | .sub v => setLong m h (c_sd_atomic_long_sub w (m.longVal h) v).2
  | .cas e d =>
      setLong m h (c_sd_atomic_long_compare_and_exchange w (m.longVal h) e d).2

/-- Effect on memory of one call against the bool cell at address `h`. -/
def applyBoolOp (m : Mem) (h : Nat) : BoolOp → Mem
  | .load => m
  | .store v => setBool m h (c_sd_atomic_bool_store (m.boolVal h) v)
  | .add v => setBool m h (c_sd_atomic_bool_add (m.boolVal h) v).2
  | .sub v => setBool m h (c_sd_atomic_bool_sub (m.boolVal h) v).2
  | .cas e d =>
      setBool m h (c_sd_atomic_bool_compare_and_exchange (m.boolVal h) e d).2

/- Interleaved execution on a single long cell.  Every operation is one
indivisible step on the stored pattern (that is precisely the atomicity the
`_Atomic` qualifier provides), so a concurrent run of several threads is an
arbitrary interleaving of their call sequences: a single list of steps
folded over the cell. -/

/-- Effect of one call on the stored pattern of a single long cell. -/
def LongOp.applyVal (w : Nat) (op : LongOp) (s : Nat) : Nat :=
  match op with
  | .load => s
  | .store v => c_sd_atomic_long_store w s v
  | .add v => (c_sd_atomic_long_add w s v).2
  | .sub v => (c_sd_atomic_long_sub w s v).2
  | .cas e d => (c_sd_atomic_long_compare_and_exchange w s e d).2

/-- Run an interleaved sequence of atomic calls against one long cell. -/
def runLong (w : Nat) (ops : List LongOp) (s : Nat) : Nat :=
  ops.foldl (fun t op => op.applyVal w t) s

/- Claim theorems. -/

/-- C1: `compareAndExchange` compares the current value against `expected`;
if equal it stores `desired` and returns `true`, otherwise it leaves the cell
unchanged and returns `false`; a `false` return is never spurious — whenever
the current value equals `expected` the call returns `true`.  Stated for the
long cell at every width and for the bool cell holding a proper 0/1
representation. -/
theorem c1_compare_and_exchange_correct (w : Nat) (s : Nat) (e d : Int)
    (b eb db : Bool) :
    ((c_sd_atomic_long_compare_and_exchange w s e d).1 = true ↔
        s = wrapLong w e)
    ∧ (s = wrapLong w e →
        c_sd_atomic_long_compare_and_exchange w s e d = (true, wrapLong w d))
    ∧ (s ≠ wrapLong w e →
        c_sd_atomic_long_compare_and_exchange w s e d = (false, s))
    ∧ ((c_sd_atomic_bool_compare_and_exchange (boolByte b) eb db).1 = true ↔
        b = eb)
    ∧ (b = eb → c_sd_atomic_bool_compare_and_exchange (boolByte b) eb db
        = (true, boolByte db))
    ∧ (b ≠ eb → c_sd_atomic_bool_compare_and_exchange (boolByte b) eb db
        = (false, boolByte b)) := by
  refine ⟨?_, fun h => ?_, fun h => ?_, ?_, fun h => ?_, fun h => ?_⟩
  · by_cases h : s = wrapLong w e <;>
      simp [c_sd_atomic_long_compare_and_exchange,
        atomic_compare_exchange_strong, h]
  · simp [c_sd_atomic_long_compare_and_exchange,
      atomic_compare_exchange_strong, h]
  · simp [c_sd_atomic_long_compare_and_exchange,
      atomic_compare_exchange_strong, h]
  · cases b <;> cases eb <;>
      simp [c_sd_atomic_bool_compare_and_exchange,
        atomic_compare_exchange_strong, boolByte]
  · subst h
    simp [c_sd_atomic_bool_compare_and_exchange,
      atomic_compare_exchange_strong]
  · have hne : boolByte b ≠ boolByte eb := by
      cases b <;> cases eb <;> simp_all [boolByte]
    simp [c_sd_atomic_bool_compare_and_exchange,
      atomic_compare_exchange_strong, hne]

/-- C1 witness: the §8 test — `create(5)`, a CAS expecting 5 succeeds and
stores 9, a second CAS expecting 5 fails and leaves 9. -/
theorem c1_compare_and_exchange_correct_witness :
    c_sd_atomic_long_compare_and_exchange 64 5 5 9 = (true, wrapLong 64 9)
    ∧ c_sd_atomic_long_compare_and_exchange 64 9 5 1 = (false, 9) :=
  ⟨(c1_compare_and_exchange_correct 64 5 5 9 true true true).2.1 (by decide),
   (c1_compare_and_exchange_correct 64 9 5 1 true true true).2.2.1 (by decide)⟩

/-- C2: `add` returns the value present before the increment and leaves the
cell holding the two's-complement wraparound sum; after `create(10)`,
`add(cell, 5)` returns 10 and `load` then returns 15. -/
theorem c2_add_fetch_semantics (w : Nat) (s : Nat) (d x : Int) :
    (c_sd_atomic_long_add w s d).1 = s
    ∧ (c_sd_atomic_long_add w s d).2 = wrapLong w ((s : Int) + d)
    ∧ (c_sd_atomic_long_add w (wrapLong w x) d).2 = wrapLong w (x + d)
    ∧ c_sd_atomic_long_add 64 (c_sd_atomic_long_create 64 10) 5 = (10, 15)
    ∧ c_sd_atomic_long_load
        (c_sd_atomic_long_add 64 (c_sd_atomic_long_create 64 10) 5).2 = 15 := by
  refine ⟨rfl, rfl, ?_, by decide, by decide⟩
  simp [c_sd_atomic_long_add, wrapLong_add_left]

/-- C5: `sub` returns the pre-decrement value and stores the wraparound
difference; underflow wraps instead of raising (e.g. `0 - 1` at width 64
leaves `2^64 - 1`). -/
theorem c5_sub_fetch_semantics (w : Nat) (s : Nat) (d x : Int) :
    (c_sd_atomic_long_sub w s d).1 = s
    ∧ (c_sd_atomic_long_sub w s d).2 = wrapLong w ((s : Int) - d)
    ∧ (c_sd_atomic_long_sub w (wrapLong w x) d).2 = wrapLong w (x - d)
    ∧ (c_sd_atomic_long_sub 64 0 1).2 = 2 ^ 64 - 1 := by
  refine ⟨rfl, rfl, ?_, by decide⟩
  simp [c_sd_atomic_long_sub, wrapLong_sub_left]

/-- C6: `store` unconditionally replaces the value (independently of the
prior one) and returns nothing; an immediately following `load` returns the
stored value; `load` itself returns the current value. -/
theorem c6_store_load (w : Nat) (s t u : Nat) (value : Int) (b : Bool) :
    c_sd_atomic_long_load (c_sd_atomic_long_store w s value) = wrapLong w value
    ∧ c_sd_atomic_long_store w s value = c_sd_atomic_long_store w t value
    ∧ c_sd_atomic_long_load u = u
    ∧ c_sd_atomic_bool_load (c_sd_atomic_bool_store s b) = b
    ∧ c_sd_atomic_bool_store s b = c_sd_atomic_bool_store t b := by
  refine ⟨rfl, rfl, rfl, ?_, rfl⟩
  cases b <;> rfl

/-- C10: on a cell holding the encoding of `x`, `add d` then `sub d`
restores the cell (modulo `2 ^ w`), the first call returning the original
value and the second returning the intermediate sum. -/
theorem c10_add_sub_inverse (w : Nat) (x d : Int) :
    (c_sd_atomic_long_add w (wrapLong w x) d).1 = wrapLong w x
    ∧ (c_sd_atomic_long_sub w
        (c_sd_atomic_long_add w (wrapLong w x) d).2 d).1 = wrapLong w (x + d)
    ∧ (c_sd_atomic_long_sub w
        (c_sd_atomic_long_add w (wrapLong w x) d).2 d).2 = wrapLong w x := by
  have h : (c_sd_atomic_long_add w (wrapLong w x) d).2 = wrapLong w (x + d) := by
    simp [c_sd_atomic_long_add, wrapLong_add_left]
  refine ⟨rfl, ?_, ?_⟩
  · simpa [c_sd_atomic_long_sub] using h
  · simp [c_sd_atomic_long_sub, h, wrapLong_sub_left, add_sub_cancel_right]

/-- C3: on a bool cell, `add true` returns the current boolean value and
toggles it (bit-0 of the stored byte flips), `add false` returns the current
value and leaves the byte unchanged; the concrete chain
`create(false)`, `add true` ↦ `false` then `load` ↦ `true`,
`add true` ↦ `true` then `load` ↦ `false`. -/
theorem c3_bool_add_toggle (s : Nat) (hs : s < 256) :
    (c_sd_atomic_bool_add s true).1 = c_sd_atomic_bool_load s
    ∧ c_sd_atomic_bool_load (c_sd_atomic_bool_add s true).2
        = ! c_sd_atomic_bool_load s
    ∧ c_sd_atomic_bool_add s false = (c_sd_atomic_bool_load s, s)
    ∧ c_sd_atomic_bool_add (c_sd_atomic_bool_create false) true = (false, 1)
    ∧ c_sd_atomic_bool_load 1 = true
    ∧ c_sd_atomic_bool_add 1 true = (true, 2)
    ∧ c_sd_atomic_bool_load 2 = false := by
  refine ⟨rfl, ?_, ?_, by decide, by decide, by decide, by decide⟩
  · show byteBool ((s + 1) % 256) = ! byteBool s
    unfold byteBool
    rw [Nat.mod_mod_of_dvd _ (by norm_num : (2 : Nat) ∣ 256)]
    rcases Nat.mod_two_eq_zero_or_one s with h | h <;>
      simp [Nat.add_mod, h]
  · show (byteBool s, (s + 0) % 256) = (c_sd_atomic_bool_load s, s)
    rw [Nat.add_zero, Nat.mod_eq_of_lt hs]
    rfl

/-- C3 witness: the no-op part at a concrete in-range byte. -/
theorem c3_bool_add_toggle_witness :
    c_sd_atomic_bool_add 1 false = (c_sd_atomic_bool_load 1, 1) :=
  (c3_bool_add_toggle 1 (by decide)).2.2.1

/-- C4 counterexample: from a freshly created `false` cell (stored byte 0),
`sub true` stores byte 255 while `add true` stores byte 1, so the two calls
do not produce the same resulting stored value. -/
theorem c4_bool_sub_ne_add_counterexample :
    c_sd_atomic_bool_sub (c_sd_atomic_bool_create false) true
      ≠ c_sd_atomic_bool_add (c_sd_atomic_bool_create false) true
    ∧ (c_sd_atomic_bool_sub (c_sd_atomic_bool_create false) true).2 = 255
    ∧ (c_sd_atomic_bool_add (c_sd_atomic_bool_create false) true).2 = 1 := by
  decide

/-- C4 amended: `sub` returns the same value as `add` for the same argument
and leaves the cell with the same observable (loaded) boolean; for
`value = false` the two calls coincide exactly, while for `value = true` the
stored bytes differ (old−1 versus old+1 modulo 256) though their bit 0
agrees. -/
theorem c4_bool_sub_add_same_observable (s : Nat) (v : Bool) :
    (c_sd_atomic_bool_sub s v).1 = (c_sd_atomic_bool_add s v).1
    ∧ c_sd_atomic_bool_load (c_sd_atomic_bool_sub s v).2
        = c_sd_atomic_bool_load (c_sd_atomic_bool_add s v).2
    ∧ c_sd_atomic_bool_sub s false = c_sd_atomic_bool_add s false := by
  refine ⟨rfl, ?_, by simp [c_sd_atomic_bool_sub, c_sd_atomic_bool_add,
    boolByte]⟩
  cases v
  · show byteBool ((s + (256 - 0)) % 256) = byteBool ((s + 0) % 256)
    rw [Nat.sub_zero, Nat.add_mod_right, Nat.add_zero]
  · show byteBool ((s + 255) % 256) = byteBool ((s + 1) % 256)
    unfold byteBool
    rw [Nat.mod_mod_of_dvd _ (by norm_num : (2 : Nat) ∣ 256),
      Nat.mod_mod_of_dvd _ (by norm_num : (2 : Nat) ∣ 256)]
    rcases Nat.mod_two_eq_zero_or_one s with h | h <;>
      simp [Nat.add_mod, h]

/-- C9: `compareAndExchange` never exposes the observed value — on a
mismatch the boolean result is `false` whatever the current value was (two
different mismatching values give the same result), the cell is unchanged,
and the observed value is written only into the local `expected_copy` slot
of the primitive, which the wrapper discards; the caller's `expected` is
passed by value and never written. -/
theorem c9_cas_exposes_nothing (w : Nat) (s t : Nat) (e d : Int)
    (sb : Nat) (eb db : Bool)
    (hs : s ≠ wrapLong w e) (ht : t ≠ wrapLong w e)
    (hsb : sb ≠ boolByte eb) :
    (c_sd_atomic_long_compare_and_exchange w s e d).1 = false
    ∧ (c_sd_atomic_long_compare_and_exchange w s e d).1
        = (c_sd_atomic_long_compare_and_exchange w t e d).1
    ∧ (c_sd_atomic_long_compare_and_exchange w s e d).2 = s
    ∧ (atomic_compare_exchange_strong s (wrapLong w e) (wrapLong w d)).2.2 = s
    ∧ c_sd_atomic_long_compare_and_exchange w s e d
        = ((atomic_compare_exchange_strong s (wrapLong w e)
            (wrapLong w d)).1,
           (atomic_compare_exchange_strong s (wrapLong w e)
            (wrapLong w d)).2.1)
    ∧ (c_sd_atomic_bool_compare_and_exchange sb eb db).1 = false
    ∧ (c_sd_atomic_bool_compare_and_exchange sb eb db).2 = sb
    ∧ (atomic_compare_exchange_strong sb (boolByte eb) (boolByte db)).2.2
        = sb := by
  refine ⟨?_, ?_, ?_, ?_, rfl, ?_, ?_, ?_⟩ <;>
    simp [c_sd_atomic_long_compare_and_exchange,
      c_sd_atomic_bool_compare_and_exchange,
      atomic_compare_exchange_strong, hs, ht, hsb]

/-- C9 witness: concrete mismatching values (3 and 7 against expected 5 on
the long cell; byte 0 against expected `true` on the bool cell). -/
theorem c9_cas_exposes_nothing_witness :
    (c_sd_atomic_long_compare_and_exchange 64 3 5 9).1 = false
    ∧ (c_sd_atomic_long_compare_and_exchange 64 3 5 9).1
        = (c_sd_atomic_long_compare_and_exchange 64 7 5 9).1
    ∧ (c_sd_atomic_bool_compare_and_exchange 0 true false).1 = false :=
  ⟨(c9_cas_exposes_nothing 64 3 7 5 9 0 true false (by decide) (by decide)
      (by decide)).1,
   (c9_cas_exposes_nothing 64 3 7 5 9 0 true false (by decide) (by decide)
      (by decide)).2.1,
   (c9_cas_exposes_nothing 64 3 7 5 9 0 true false (by decide) (by decide)
      (by decide)).2.2.2.2.2.1⟩

/-- Auxiliary: a run consisting only of `add 1` calls advances the cell by
its length, modulo `2 ^ w`. -/
theorem runLong_all_add_one (w : Nat) :
    ∀ ops : List LongOp, (∀ op ∈ ops, op = LongOp.add 1) →
      ∀ s : Nat, runLong w ops (s % 2 ^ w) = (s + ops.length) % 2 ^ w := by
  intro ops
  induction ops with
  | nil => intro _ s; simp [runLong]
  | cons op rest ih =>
    intro hall s
    have hop : op = LongOp.add 1 := hall op (List.mem_cons_self _ _)
    have hrest : ∀ o ∈ rest, o = LongOp.add 1 :=
      fun o ho => hall o (List.mem_cons_of_mem _ ho)
    subst hop
    have hstep : (LongOp.add 1).applyVal w (s % 2 ^ w) = (s + 1) % 2 ^ w := by
      show wrapLong w (((s % 2 ^ w : Nat) : Int) + 1) = (s + 1) % 2 ^ w
      have hc : ((s % 2 ^ w : Nat) : Int) + 1 = ((s % 2 ^ w + 1 : Nat) : Int) := by
        push_cast
        ring
      rw [hc, wrapLong_natCast, Nat.add_mod (s % 2 ^ w) 1,
        Nat.mod_mod_of_dvd s dvd_rfl, ← Nat.add_mod]
    calc runLong w (LongOp.add 1 :: rest) (s % 2 ^ w)
        = runLong w rest ((LongOp.add 1).applyVal w (s % 2 ^ w)) := rfl
      _ = runLong w rest ((s + 1) % 2 ^ w) := by rw [hstep]
      _ = (s + 1 + rest.length) % 2 ^ w := ih hrest (s + 1)
      _ = (s + (LongOp.add 1 :: rest).length) % 2 ^ w := by
          rw [List.length_cons]
          congr 1
          omega

/-- C7: with every atomic call a single indivisible step on the cell, any
interleaving of N threads each performing M `add 1` calls — that is, any
step sequence of N·M calls all equal to `add 1` — run from 0 leaves exactly
N·M (modulo the cell width): no update is lost. -/
theorem c7_no_lost_updates (w N M : Nat) (ops : List LongOp)
    (hlen : ops.length = N * M)
    (hall : ∀ op ∈ ops, op = LongOp.add 1) :
    runLong w ops 0 = (N * M) % 2 ^ w := by
  have h := runLong_all_add_one w ops hall 0
  rw [Nat.zero_mod] at h
  rw [h, Nat.zero_add, hlen]

/-- C7 witness: the §8 instance, 8 threads of 10000 increments each. -/
theorem c7_no_lost_updates_witness :
    runLong 64 (List.replicate (8 * 10000) (LongOp.add 1)) 0
      = (8 * 10000) % 2 ^ 64 :=
  c7_no_lost_updates 64 8 10000 _ (by rw [List.length_replicate])
    (fun _ h => List.eq_of_mem_replicate h)

/-- C8: operations on a cell leave every other cell of either type (and the
allocator) untouched, and `create` returns the fresh next address, distinct
from every previously allocated one, initialising it without disturbing any
existing cell. -/
theorem c8_cell_independence (w : Nat) (m : Mem) (h hp a : Nat)
    (op : LongOp) (hb hbp ab : Nat) (bop : BoolOp)
    (vI : Int) (vB : Bool) (aL aB : Nat)
    (hne : hp ≠ h) (hbne : hbp ≠ hb)
    (haL : aL < m.next) (haB : aB < m.next) :
    (applyLongOp w m h op).longVal hp = m.longVal hp
    ∧ (applyLongOp w m h op).boolVal a = m.boolVal a
    ∧ (applyLongOp w m h op).next = m.next
    ∧ (applyBoolOp m hb bop).boolVal hbp = m.boolVal hbp
    ∧ (applyBoolOp m hb bop).longVal ab = m.longVal ab
    ∧ (applyBoolOp m hb bop).next = m.next
    ∧ (memLongCreate w m vI).1 = m.next
    ∧ (memLongCreate w m vI).2.longVal aL = m.longVal aL
    ∧ aL ≠ (memLongCreate w m vI).1
    ∧ (memLongCreate w m vI).2.boolVal a = m.boolVal a
    ∧ (memBoolCreate m vB).1 = m.next
    ∧ (memBoolCreate m vB).2.boolVal aB = m.boolVal aB
    ∧ aB ≠ (memBoolCreate m vB).1
    ∧ (memBoolCreate m vB).2.longVal ab = m.longVal ab := by
  refine ⟨?_, ?_, ?_, ?_, ?_, ?_, rfl, ?_, ?_, rfl, rfl, ?_, ?_, rfl⟩
  · cases op <;> simp [applyLongOp, setLong, hne]
  · cases op <;> rfl
  · cases op <;> rfl
  · cases bop <;> simp [applyBoolOp, setBool, hbne]
  · cases bop <;> rfl
  · cases bop <;> rfl
  · simp [memLongCreate, Nat.ne_of_lt haL]
  · exact Nat.ne_of_lt haL
  · simp [memBoolCreate, Nat.ne_of_lt haB]
  · exact Nat.ne_of_lt haB

/-- A two-cells-of-each-type heap used to instantiate C8 concretely. -/
def memTwoCells : Mem :=
  { longVal := fun _ => 0, boolVal := fun _ => 0, next := 2 }

/-- C8 witness: on a heap with addresses 0 and 1 allocated, an `add` on the
long cell at 1 leaves the long cell at 0 and every bool cell intact, an
`add` on the bool cell at 1 leaves the bool cell at 0 intact, and both
creates return the fresh address 2 without disturbing cell 0. -/
theorem c8_cell_independence_witness :
    (applyLongOp 64 memTwoCells 1 (LongOp.add 5)).longVal 0
      = memTwoCells.longVal 0
    ∧ (applyLongOp 64 memTwoCells 1 (LongOp.add 5)).boolVal 0
      = memTwoCells.boolVal 0
    ∧ (applyBoolOp memTwoCells 1 (BoolOp.add true)).boolVal 0
      = memTwoCells.boolVal 0
    ∧ (memLongCreate 64 memTwoCells 7).1 = memTwoCells.next
    ∧ (memLongCreate 64 memTwoCells 7).2.longVal 0 = memTwoCells.longVal 0
    ∧ (memBoolCreate memTwoCells true).2.boolVal 0
      = memTwoCells.boolVal 0 := by
  have H := c8_cell_independence 64 memTwoCells 1 0 0 (LongOp.add 5) 1 0 0
    (BoolOp.add true) 7 true 0 0 (by decide) (by decide) (by decide)
    (by decide)
  exact ⟨H.1, H.2.1, H.2.2.2.1, H.2.2.2.2.2.2.1, H.2.2.2.2.2.2.2.1,
    H.2.2.2.2.2.2.2.2.2.2.2.1⟩
